import Mathlib

/-!
# Verification of the osa-backend agent orchestration layer

A shallow embedding, in Lean 4, of the JavaScript backend at hand:

* `src/services/agent.service.js` — `CircuitBreaker`, `isRetryableError`,
  the retry/backoff loop of `runAgent`, history formatting and user-context
  extraction;
* `src/services/memory.service.js` — `saveToMemory`, `retrieveFromMemory`;
* `src/tools/githubIssueSearchTool.js` — `findRepository` and `_call`;
* `src/routes/chat.routes.js` — the `POST /api/chat` handler.

JavaScript strings are Lean `String`s (operated on as `List Char`),
JavaScript numbers used as timestamps/counters are `Nat`/`Int`, nullable
values are `Option`, thrown exceptions are the `error` side of `Except`,
and network calls (GitHub API, the vector store's similarity search, the
model invocation) are oracle functions passed in as parameters.
-/


/-! ## JavaScript string primitives

The regular expressions and string methods the source uses, re-implemented
over `List Char`.  JavaScript's `\w` is `[A-Za-z0-9_]`, the `i` flag
lowercases both sides of literal comparisons, and `String.prototype.includes`
is plain substring containment. -/

/-- JavaScript `\w` character class: ASCII letters, digits and underscore. -/
def isWordChar (c : Char) : Bool :=
  c.isAlpha || c.isDigit || c = '_'

/-- Case-insensitive match of a (lowercase) literal at the head of `s`;
returns the rest of `s` on success.  Models how a regex engine consumes a
literal under the `i` flag. -/
def litMatch : List Char → List Char → Option (List Char)
  | [], s => some s
  | _ :: _, [] => none
  | l :: ls, c :: cs => if c.toLower = l then litMatch ls cs else none

/-- The capture `(\w+)` at the head of `s`: the maximal nonempty run of word
characters (greedy, nothing follows the group in the source's patterns). -/
def wordCapture (s : List Char) : Option (List Char) :=
  match s.takeWhile isWordChar with
  | [] => none
  | w => some w

/-- One alternative `lit(\w+)` of the source's name regex, tried at a fixed
position. -/
def altAt (lit : List Char) (s : List Char) : Option (List Char) :=
  match litMatch lit s with
  | none => none
  | some rest => wordCapture rest

/-- The alternation `my name is (\w+)|i'm (\w+)|i am (\w+)` tried at one
position, alternatives in source order. -/
def nameAltAt (s : List Char) : Option (List Char) :=
  match altAt "my name is ".toList s with
  | some w => some w
  | none =>
    match altAt "i'm ".toList s with
    | some w => some w
    | none => altAt "i am ".toList s

/-- Left-to-right scan of the subject, as a regex engine advances the match
position: the earliest position at which an alternative matches wins. -/
def nameMatchScan : List Char → Option (List Char)
  | [] => none
  | c :: cs =>
    match nameAltAt (c :: cs) with
    | some w => some w
    | none => nameMatchScan cs

/-- `content.match(/my name is (\w+)|i'm (\w+)|i am (\w+)/i)` followed by
`nameMatch[1] || nameMatch[2] || nameMatch[3]` (agent.service.js lines
280-286): the captured word of the first match, in the subject's original
case. -/
def jsNameMatch (s : String) : Option String :=
  (nameMatchScan s.toList).map fun w => String.mk w

/-- `String.prototype.includes` on `List Char`. -/
def strIncludes (s : List Char) (pat : List Char) : Bool :=
  match s with
  | [] => pat.isEmpty
  | _ :: tail => pat.isPrefixOf s || strIncludes tail pat

/-- `String.prototype.includes` on `String`. -/
def jsIncludes (s pat : String) : Bool :=
  strIncludes s.toList pat.toList

/-- `String.prototype.toLowerCase` (the source only lowercases ASCII
content). -/
def jsToLower (s : String) : String :=
  String.mk (s.toList.map Char.toLower)

/-! ## CircuitBreaker (agent.service.js lines 16-50)

`Date.now()` is a `Nat` parameter `now`.  The operation `fn` is summarised
by a boolean `opOk`: `true` when awaiting it would succeed, `false` when it
would throw.  `execute` returns the mutated breaker and what happened:
`.rejected` models the `throw new Error("Circuit breaker is OPEN")` path in
which the operation is never invoked, `.failure` the path that invokes the
operation, does the failure bookkeeping and rethrows. -/

inductive CBState where
  | CLOSED
  | OPEN
  | HALF_OPEN
deriving DecidableEq

inductive CBOutcome where
  | success
  | failure
  | rejected
deriving DecidableEq

structure CircuitBreaker where
  failures : Nat
  lastFailure : Option Nat
  state : CBState
  threshold : Nat
  timeout : Nat
deriving DecidableEq

/-- The `constructor()`: 0 failures, no last failure, CLOSED, threshold 5,
timeout 30000 ms. -/
def CircuitBreaker.init : CircuitBreaker :=
  { failures := 0, lastFailure := none, state := CBState.CLOSED,
    threshold := 5, timeout := 30000 }

/-- JavaScript numeric coercion of `this.lastFailure` in
`Date.now() - this.lastFailure`: `null` coerces to 0. -/
def jsNumOfNullable : Option Nat → Int
  | none => 0
  | some n => (n : Int)

/-- `CircuitBreaker.execute`.  The `if (this.state === "OPEN")` guard either
throws (older than `timeout`? no: within it) or moves to `HALF_OPEN`; then the
operation runs: on success a `HALF_OPEN` breaker closes and resets
`failures`; on failure `failures` is incremented, `lastFailure` recorded, the
threshold re-evaluated and the error rethrown. -/
def CircuitBreaker.execute (cb : CircuitBreaker) (now : Nat) (opOk : Bool) :
    CircuitBreaker × CBOutcome :=
  let checked : Option CircuitBreaker :=
    if cb.state = CBState.OPEN then
      if (now : Int) - jsNumOfNullable cb.lastFailure > (cb.timeout : Int) then
        some { cb with state := CBState.HALF_OPEN }
      else
        none
    else
      some cb
  match checked with
  | none => (cb, CBOutcome.rejected)
  | some cb1 =>
    if opOk then
      if cb1.state = CBState.HALF_OPEN then
        ({ cb1 with state := CBState.CLOSED, failures := 0 }, CBOutcome.success)
      else
        (cb1, CBOutcome.success)
    else
      let f := cb1.failures + 1
      ({ cb1 with
          failures := f,
          lastFailure := some now,
          state := if f ≥ cb1.threshold then CBState.OPEN else cb1.state },
        CBOutcome.failure)

/-- A sequence of `execute` calls: each element of `ops` is
`(Date.now() at the call, whether the operation would succeed)`. -/
def CircuitBreaker.run (cb : CircuitBreaker) (ops : List (Nat × Bool)) :
    CircuitBreaker :=
  ops.foldl (fun c p => (c.execute p.1 p.2).1) cb

/-- The failures among a call sequence. -/
def countFails (ops : List (Nat × Bool)) : Nat :=
  (ops.filter fun p => !p.2).length

/-! ## isRetryableError (agent.service.js lines 53-69) -/

/-- A JavaScript `Error`-like value: `message` may be absent.  A `null` or
`undefined` error is `none` at the use sites. -/
structure JsErrorObj where
  message : Option String
deriving DecidableEq

/-- The source's `retryablePatterns` array, in order. -/
def retryablePatterns : List String :=
  ["failed to parse stream", "network error", "timeout", "rate limit",
   "429", "503", "504"]

/-- `isRetryableError`: `!error` short-circuits to `false`; otherwise
`error.message?.toLowerCase() || ""` is tested with
`retryablePatterns.some((pattern) => errorMessage.includes(pattern))`. -/
def isRetryableError : Option JsErrorObj → Bool
  | none => false
  | some e =>
    let errorMessage :=
      match e.message with
      | some m => jsToLower m
      | none => ""
    retryablePatterns.any fun p => jsIncludes errorMessage p

/-! ## Retry backoff (agent.service.js lines 362-365) -/

/-- `Math.min(1000 * Math.pow(2, attempts - 1), 10000)`: the delay awaited
before the next attempt, computed after attempt number `attempts` failed
(`attempts ≥ 1` at that point in the loop). -/
def backoffDelay (attempts : Nat) : Nat :=
  min (1000 * 2 ^ (attempts - 1)) 10000

/-! ## The per-request timeout of runAgent (agent.service.js lines 318-321)

The source arms `const timeout = setTimeout(() => { throw new Error("Request
timeout after 30 seconds"); }, 30000);` and then enters the retry loop inside
`try { ... } catch (error) { ... return apology }`.  Node.js event-loop
semantics of that construct: when the timer fires, its callback runs as a
macrotask of its own; the `try`/`catch` of `runAgent` belongs to the
suspended async function's frame, which is not on the callback's stack, so
the callback's `throw` is delivered to the process-wide `uncaughtException`
handler (server.js installs one that only logs) — it neither rejects nor
resumes the pending `await` inside the loop.  The model below follows one
request whose first upstream invocation (`executor.invoke`, awaited through
`circuitBreaker.execute`) never settles; `requestTick` is one millisecond. -/

structure RequestState where
  now : Nat
  timerPending : Bool
  uncaughtLog : List String
  agentReturned : Option String
deriving DecidableEq

/-- `runAgent` entered at time 0: timer armed, nothing returned. -/
def requestStart : RequestState :=
  { now := 0, timerPending := true, uncaughtLog := [], agentReturned := none }

/-- One millisecond of the hung request.  The only event that can occur is
the timer firing once 30000 ms have passed: its thrown error goes to the
uncaught-exception log, never into `runAgent`'s `catch`; the await the loop
is suspended on never settles, so `agentReturned` is never assigned and
`clearTimeout` is never reached. -/
def requestTick (s : RequestState) : RequestState :=
  if s.timerPending ∧ 30000 ≤ s.now + 1 then
    { s with
      now := s.now + 1,
      timerPending := false,
      uncaughtLog := s.uncaughtLog ++ ["Request timeout after 30 seconds"] }
  else
    { s with now := s.now + 1 }

/-- The request state `n` ms after `runAgent` was entered. -/
def requestAfter : Nat → RequestState
  | 0 => requestStart
  | n + 1 => requestTick (requestAfter n)

/-! ## History formatting and user-context extraction
(agent.service.js lines 210-311)

A retrieved vector-store document carries its text and the metadata the
source reads: `role` and `timestamp` (an ISO-8601 instant, modelled as the
millisecond value it denotes, which `new Date(…)` yields order-faithfully;
metadata the claims never inspect is omitted). -/

structure MemDoc where
  pageContent : String
  role : Option String
  timestamp : Option Nat
deriving DecidableEq

inductive ChatMessage where
  | humanMsg (content : String)
  | aiMsg (content : String)
deriving DecidableEq

/-- `formatHistoryFromMemory`: each retrieved document becomes a
`HumanMessage` or `AIMessage` according to `metadata.role`; documents with
any other role are warned about and skipped. -/
def formatHistoryFromMemory (docs : List MemDoc) : List ChatMessage :=
  docs.filterMap fun d =>
    match d.role with
    | some "human" => some (ChatMessage.humanMsg d.pageContent)
    | some "ai" => some (ChatMessage.aiMsg d.pageContent)
    | _ => none

/-- The name one turn contributes: the context loop runs the name regex only
on messages whose `_getType()` is `"human"`. -/
def turnName : ChatMessage → Option String
  | ChatMessage.humanMsg c => jsNameMatch c
  | ChatMessage.aiMsg _ => none

/-- One iteration's assignment: `if (nameMatch) userContext.name = …` —
assign the new match when there is one, keep the accumulator otherwise. -/
def overwriteAssign {α β : Type} (f : α → Option β) (acc : Option β)
    (m : α) : Option β :=
  match f m with
  | some n => some n
  | none => acc

/-- The context-extraction loop's effect on `userContext.name`
(agent.service.js lines 277-287): starts at `null`; on every human message
whose content matches the name regex the field is ASSIGNED the captured
word — the source has no only-if-unset guard, so each later match
overwrites the current value. -/
def extractUserName (history : List ChatMessage) : Option String :=
  history.foldl (overwriteAssign turnName) none

/-! ## Memory retrieval (memory.service.js lines 88-145)

The vector store is an oracle: `sim true` is the result of
`vectorStore.similaritySearch(currentInput, k, { userId, mentionsName:
true })`, `sim false` the result of the same search without the
`mentionsName` filter — in whatever similarity-ranked order the store
returns.  `userId` and `k` are fixed for the whole call and folded into the
oracle.  The final `relevantDocs.sort((a, b) => new Date(a.metadata?.
timestamp || 0) - new Date(b.metadata?.timestamp || 0))` is ECMAScript's
stable sort under a total preorder comparator, i.e. insertion sort by the
timestamp key (missing timestamp = epoch 0). -/

/-- The comparator key: `new Date(d.metadata?.timestamp || 0)`. -/
def tsKey (d : MemDoc) : Nat := d.timestamp.getD 0

/-- Ascending-timestamp order on retrieved documents. -/
def tsLE (a b : MemDoc) : Prop := tsKey a ≤ tsKey b

instance : DecidableRel tsLE := fun a b => Nat.decLe (tsKey a) (tsKey b)

instance : IsTotal MemDoc tsLE := ⟨fun a b => Nat.le_total (tsKey a) (tsKey b)⟩

instance : IsTrans MemDoc tsLE := ⟨fun _ _ _ => Nat.le_trans⟩

/-- `currentInput.match(/name|who am i/i)` is non-null: the input contains
"name" or "who am i", case-insensitively. -/
def identityQuery (input : String) : Bool :=
  jsIncludes (jsToLower input) "name" || jsIncludes (jsToLower input) "who am i"

/-- `retrieveFromMemory`: missing/empty chatId or input short-circuits to
`[]`; an identity-looking query first runs the `mentionsName: true`
filtered search; if that (or a non-identity query's initial `[]`) is empty,
the unfiltered conversation-scoped search runs; the result is sorted
ascending by timestamp.  (A throwing similarity search is caught and yields
`[]`; the oracle is total, so that branch is not represented.) -/
def retrieveFromMemory (chatId : Option String) (currentInput : Option String)
    (sim : Bool → List MemDoc) : List MemDoc :=
  match chatId, currentInput with
  | some cid, some input =>
    if cid = "" ∨ input = "" then []
    else
      let nameMatched := identityQuery input
      let relevantDocs : List MemDoc := if nameMatched then sim true else []
      let relevantDocs2 :=
        if relevantDocs.length = 0 then sim false else relevantDocs
      List.insertionSort tsLE relevantDocs2
  | _, _ => []

/-! ## Memory writes of the retry loop
(agent.service.js lines 254, 323-376; memory.service.js lines 29-86)

What one attempt's `circuitBreaker.execute(...)` resolves to is an oracle
`res : Nat → Except JsErrorObj (Option String)` indexed by the attempt
number: `.ok out?` is a response whose `result.output ||
result.returnValues?.output` chain is `out?`; `.error e` is any throw — the
upstream failure, the breaker's circuit-open rejection or the
"No response from agent" guard.  A memory row is reduced to the fields the
claims inspect (the conversation scope, the role, the sanitized text);
`new Date().toISOString()` and the context markers are dropped. -/

structure MemEntry where
  userId : String
  role : String
  content : String
deriving DecidableEq

/-- `String.prototype.slice(0, n)`. -/
def jsSlice (s : String) (n : Nat) : String := String.mk (s.toList.take n)

/-- `saveToMemory(chatId, userInput, aiOutput)`: a falsy argument skips the
save; otherwise two rows scoped to `chatId` are appended to the store. -/
def saveToMemory (chatId userInput aiOutput : String) : List MemEntry :=
  if chatId = "" ∨ userInput = "" ∨ aiOutput = "" then []
  else
    [ { userId := chatId, role := "human", content := jsSlice userInput 1000 },
      { userId := chatId, role := "ai", content := jsSlice aiOutput 2000 } ]

/-- The `while (attempts < maxAttempts)` body from attempt number
`attemptNo`, with `fuel` iterations left before the loop guard stops
(entered with `fuel = maxAttempts = 3`, so `fuel ≥ 1` on every reached
iteration and the `fuel = 0` row is dead code).  On success the output is
defaulted to "No response generated" when the chain is falsy, persisted via
`saveToMemory` only when `if (chatId)` — the caller-supplied id, not the
ephemeral `temp_session_…` — is truthy, and returned.  On a retryable error
with attempts left the loop continues after the backoff; otherwise the error
is rethrown and the outer catch returns the apology string embedding the
error's message. -/
def runAgentFrom (chatId : Option String) (input : String)
    (res : Nat → Except JsErrorObj (Option String)) :
    Nat → Nat → String × List MemEntry
  | _, 0 => ("", [])
  | attemptNo, fuel + 1 =>
    match res attemptNo with
    | Except.ok out? =>
      let output :=
        match out? with
        | some o => if o = "" then "No response generated" else o
        | none => "No response generated"
      let writes :=
        match chatId with
        | some cid => if cid = "" then [] else saveToMemory cid input output
        | none => []
      (output, writes)
    | Except.error e =>
      if isRetryableError (some e) ∧ fuel ≥ 1 then
        runAgentFrom chatId input res (attemptNo + 1) fuel
      else
        ("I apologize, but I'm experiencing technical difficulties. Please try again in a moment. (Error: "
            ++ (match e.message with | some m => m | none => "undefined")
            ++ ")",
          [])

/-- `runAgent`'s observable result: the returned string and the memory rows
written, for a request with the given caller-supplied `chatId` (or none). -/
def runAgentModel (chatId : Option String) (input : String)
    (res : Nat → Except JsErrorObj (Option String)) :
    String × List MemEntry :=
  runAgentFrom chatId input res 1 3

/-- The conversation-scoped view of the store: what a later
`retrieveFromMemory` for conversation `uid` draws on (the similarity search
runs under the `{ userId: uid }` filter). -/
def scopedEntries (store : List MemEntry) (uid : String) : List MemEntry :=
  store.filter fun e => e.userId == uid

/-! ## More JavaScript string methods, for repository-name normalization -/

/-- `String.prototype.replace` with a string pattern: replaces the first
occurrence only. -/
def replaceFirstChars (s pat repl : List Char) : List Char :=
  match s with
  | [] => if pat.isEmpty then repl else []
  | c :: rest =>
    if pat.isPrefixOf s then repl ++ s.drop pat.length
    else c :: replaceFirstChars rest pat repl

/-- `String.prototype.replace` on `String`. -/
def jsReplaceFirst (s pat repl : String) : String :=
  String.mk (replaceFirstChars s.toList pat.toList repl.toList)

/-- `String.prototype.trim`. -/
def jsTrim (s : String) : String :=
  String.mk
    (((s.toList.dropWhile Char.isWhitespace).reverse.dropWhile
        Char.isWhitespace).reverse)

/-- Lines 51-55: strip the URL prefixes, lowercase, trim. -/
def normalizeRepoName (repoName : String) : String :=
  jsTrim (jsToLower
    (jsReplaceFirst (jsReplaceFirst repoName "https://github.com/" "")
      "github.com/" ""))

/-- `const [owner, repo] = repoName.split("/")`: the first two fields. -/
def splitSlashFirstTwo (s : String) : String × String :=
  let parts := (s.toList.splitOn '/').map String.mk
  (parts.headD "", (parts.drop 1).headD "")

/-! ## GitHubIssueSearchTool (githubIssueSearchTool.js)

The GitHub API is an oracle: `repoGetOk owner repo` is whether
`octokit.rest.repos.get` succeeds; each `searchX name` is `none` when that
search call throws (the strategy loop swallows the throw and moves on) and
`some items` with the returned repositories' full names, stars-descending,
otherwise.  An error value either carries a `message` (a built `Error`) or
is a `ReferenceError` raised by evaluating an unbound identifier. -/

inductive JsError where
  | mkError (message : String)
  | referenceError (name : String)
deriving DecidableEq

structure GitHubApi where
  repoGetOk : String → String → Bool
  searchInName : String → Option (List String)
  searchOrg : String → Option (List String)
  searchInNameDesc : String → Option (List String)

/-- One iteration of the strategy `for` loop: a throwing strategy logs and
continues; a strategy with at least one item returns the best match's
(items[0]) full name. -/
def strategyResult : Option (List String) → Option String
  | none => none
  | some [] => none
  | some (best :: _) => some best

/-- `findRepository` (lines 50-124).  Normalizes the input; for an input
containing "/" tries the direct lookup first (its own try/catch falls
through to the searches on failure); then runs the three search strategies
in order.  When everything fails, the `throw new Error('Could not find
repository matching "…"')` is caught by findRepository's own catch; the
Error carries no `status`, so the 404/403 arms are skipped and it is
rewrapped as `Error searching for repository: ${error.message}` and
rethrown. -/
def findRepository (api : GitHubApi) (repoName0 : String) :
    Except JsError String :=
  let repoName := normalizeRepoName repoName0
  let direct : Option String :=
    if jsIncludes repoName "/" then
      if api.repoGetOk (splitSlashFirstTwo repoName).1
          (splitSlashFirstTwo repoName).2 then
        some repoName
      else
        none
    else
      none
  match direct with
  | some r => Except.ok r
  | none =>
    match strategyResult (api.searchInName repoName) with
    | some best => Except.ok best
    | none =>
      match strategyResult (api.searchOrg repoName) with
      | some best => Except.ok best
      | none =>
        match strategyResult (api.searchInNameDesc repoName) with
        | some best => Except.ok best
        | none =>
          Except.error (JsError.mkError
            ("Error searching for repository: Could not find repository matching \""
              ++ repoName ++ "\""))

/-- A JavaScript value as the tool's argument fields receive it. -/
inductive JsVal where
  | undef
  | nullVal
  | str (s : String)
  | num (n : Int)
  | boolVal (b : Bool)
deriving DecidableEq

structure IssueSearchArg where
  repository : JsVal
  labels : JsVal
  state : JsVal
deriving DecidableEq

/-- `GitHubIssueSearchSchema.safeParse(arg).success`: `repository` a string,
`labels` an optional string, `state` an optional member of
{open, closed, all}. -/
def issueArgValid (arg : IssueSearchArg) : Bool :=
  (match arg.repository with
   | JsVal.str _ => true
   | _ => false) &&
  (match arg.labels with
   | JsVal.undef => true
   | JsVal.str _ => true
   | _ => false) &&
  (match arg.state with
   | JsVal.undef => true
   | JsVal.str s => s == "open" || s == "closed" || s == "all"
   | _ => false)

/-- The identifiers in scope inside the OUTER catch block of `_call` (lines
264-283): the class instance, the method's parameter `arg` and the catch's
own parameter `error`.  The destructuring `const { repository, labels,
state } = arg;` (line 138) sits INSIDE the `try` block; `const` bindings
are block-scoped, so `repository` is NOT visible in the catch block. -/
def outerCatchScope : List String := ["this", "arg", "error"]

/-- Evaluating an identifier under JavaScript scoping: referencing a name
bound in no enclosing scope throws `ReferenceError: name is not defined`. -/
def evalIdent (scope : List String) (name : String) : Except JsError Unit :=
  if name ∈ scope then Except.ok ()
  else Except.error (JsError.referenceError name)

/-- The outer catch handler of `_call`.  Its first statement,
`let errorMessage = ` followed by a template literal interpolating
`repository`, evaluates that identifier; only if the lookup succeeded would
the `error.status` / `error.response` / `error.message` chain run and the
built string be RETURNED (the arm shown is the `error.message` one, the only
arm reachable for the errors `findRepository` rethrows, which carry no
`status` and no `response`). -/
def outerCatchHandler (error : JsError) : Except JsError String :=
  match evalIdent outerCatchScope "repository" with
  | Except.error e => Except.error e
  | Except.ok _ =>
    Except.ok
      (match error with
       | JsError.mkError m => "Error processing issue search: " ++ m
       | JsError.referenceError n =>
         "Error processing issue search: " ++ n ++ " is not defined")

/-- `GitHubIssueSearchTool._call` (lines 126-284).  `listIssues` abstracts
lines 146-262: the issue listing/formatting for the RESOLVED repository,
wrapped in the inner try/catch — whose handlers do have `repository` in
scope and return strings; an `Except.error` from it models anything the
inner region lets escape and lands in the outer catch.  Schema-validation
failure returns the invalid-input string (its interpolation of
`validation.error.message` is abbreviated away); a throw out of
`findRepository` lands in the outer catch. -/
def issueToolCall (api : GitHubApi)
    (listIssues : String → Except JsError String)
    (arg : IssueSearchArg) : Except JsError String :=
  if !issueArgValid arg then
    Except.ok "Error: Invalid input format for github_issue_search"
  else
    match arg.repository with
    | JsVal.str repository =>
      match findRepository api repository with
      | Except.error e => outerCatchHandler e
      | Except.ok fullRepoPath =>
        match listIssues fullRepoPath with
        | Except.ok s => Except.ok s
        | Except.error e => outerCatchHandler e
    | _ => Except.ok "Error: Invalid input format for github_issue_search"

/-! ## POST /api/chat (chat.routes.js lines 24-45)

The request body's two fields are `JsVal`s (`undef` models an absent
field).  The agent call is an oracle: `.ok response` when `runAgent`
resolves, `.error e` when it rejects (the handler's catch then answers
500). -/

/-- JavaScript truthiness of the modelled values (`""`, `0`, `false`,
`null`, `undefined` are falsy). -/
def jsTruthy : JsVal → Bool
  | JsVal.undef => false
  | JsVal.nullVal => false
  | JsVal.str s => s != ""
  | JsVal.num n => n != 0
  | JsVal.boolVal b => b

/-- `typeof v === "string"`. -/
def isStringVal : JsVal → Bool
  | JsVal.str _ => true
  | _ => false

structure ChatBody where
  message : JsVal
  chatId : JsVal
deriving DecidableEq

inductive HttpResponse where
  | badRequest (error : String)
  | okJson (response : String)
  | serverError (error details : String)
deriving DecidableEq

/-- The POST handler: `if (!message || typeof message !== "string")` → 400;
`if (chatId && typeof chatId !== "string")` → 400; otherwise `runAgent` is
awaited and its result answered as `200 {response}`, any rejection as
`500 {error, details}`. -/
def chatPostHandler (body : ChatBody) (agent : Except JsErrorObj String) :
    HttpResponse :=
  if !(jsTruthy body.message && isStringVal body.message) then
    HttpResponse.badRequest
      "Bad Request: \"message\" is required and must be a string."
  else if jsTruthy body.chatId && !isStringVal body.chatId then
    HttpResponse.badRequest
      "Bad Request: \"chatId\" must be a string if provided."
  else
    match agent with
    | Except.ok resp => HttpResponse.okJson resp
    | Except.error e =>
      HttpResponse.serverError "Internal Server Error"
        (match e.message with
         | some m => m
         | none => "undefined")

/-! ## Theorems -/

/-- `strIncludes` decides substring containment (`List.IsInfix`). -/
theorem strIncludes_iff_infix (s pat : List Char) :
    strIncludes s pat = true ↔ pat <:+: s := by
  induction s with
  | nil =>
    simp [strIncludes, List.isEmpty_iff]
  | cons c cs ih =>
    simp [strIncludes, ih, List.infix_cons_iff, List.isPrefixOf_iff_prefix]

/-- Below the threshold, failures accumulate one per failed operation —
successes in `CLOSED` change nothing at all — and the breaker stays
`CLOSED`. -/
theorem CircuitBreaker.run_below_threshold (ops : List (Nat × Bool)) :
    ∀ cb : CircuitBreaker, cb.state = CBState.CLOSED → cb.threshold = 5 →
    cb.failures + countFails ops < 5 →
    (cb.run ops).state = CBState.CLOSED ∧
    (cb.run ops).failures = cb.failures + countFails ops ∧
    (cb.run ops).threshold = 5 := by
  induction ops with
  | nil =>
    intro cb hst hth _
    simp [CircuitBreaker.run, countFails, hst, hth]
  | cons p rest ih =>
    intro cb hst hth hlt
    obtain ⟨now, ok⟩ := p
    cases ok with
    | true =>
      have hexec : (cb.execute now true).1 = cb := by
        simp [CircuitBreaker.execute, hst]
      have hcf : countFails ((now, true) :: rest) = countFails rest := by
        simp [countFails]
      have hrun : cb.run ((now, true) :: rest) = cb.run rest := by
        simp [CircuitBreaker.run, hexec]
      rw [hrun, hcf]
      exact ih cb hst hth (by omega)
    | false =>
      have hcf : countFails ((now, false) :: rest) = countFails rest + 1 := by
        simp [countFails]
      rw [hcf] at hlt
      have hnotge : ¬ cb.failures + 1 ≥ cb.threshold := by omega
      have hstate : (cb.execute now false).1.state = CBState.CLOSED := by
        simp [CircuitBreaker.execute, hst, hnotge]
      have hfails : (cb.execute now false).1.failures = cb.failures + 1 := by
        simp [CircuitBreaker.execute, hst]
      have hthr : (cb.execute now false).1.threshold = 5 := by
        simp [CircuitBreaker.execute, hst, hth]
      have hrun : cb.run ((now, false) :: rest) =
          ((cb.execute now false).1).run rest := rfl
      rw [hrun, hcf]
      obtain ⟨s1, s2, s3⟩ :=
        ih ((cb.execute now false).1) hstate hthr (by rw [hfails]; omega)
      refine ⟨s1, ?_, s3⟩
      rw [s2, hfails]
      omega

/-- A fifth failure while `CLOSED` trips the breaker. -/
theorem CircuitBreaker.fifth_failure_opens (cb : CircuitBreaker) (t : Nat)
    (hst : cb.state = CBState.CLOSED) (hth : cb.threshold = 5)
    (hf : cb.failures = 4) :
    ((cb.execute t false).1).state = CBState.OPEN ∧
    ((cb.execute t false).1).failures = 5 := by
  simp [CircuitBreaker.execute, hst, hth, hf]

/-- C1 counterexample.  After five failures at time 0 the breaker is OPEN
with `lastFailure = 0`.  The claim says a call made at least 30000 ms after
the last failure — inclusive at the boundary — transitions to HALF_OPEN and
invokes the operation; but the source tests `Date.now() - this.lastFailure >
this.timeout` strictly, so the call at exactly `now = 30000` throws the
circuit-open error without invoking the operation and leaves the state
OPEN. -/
theorem C1_boundary_counterexample :
    ((CircuitBreaker.init.run
        [(0, false), (0, false), (0, false), (0, false), (0, false)]).execute
        30000 true).2 = CBOutcome.rejected ∧
    ((CircuitBreaker.init.run
        [(0, false), (0, false), (0, false), (0, false), (0, false)]).execute
        30000 true).1.state = CBState.OPEN := by
  constructor
  · rfl
  · rfl

/-- C1 (amended).  `CircuitBreaker.execute` implements the state machine:
from CLOSED, after exactly 5 consecutive failed operations (and not after 4)
the state is OPEN; while OPEN, a call made while at most the timeout
(30000 ms) has elapsed since `lastFailure` is rejected with the circuit-open
error without invoking the operation and changes nothing; a call made
strictly more than the timeout after `lastFailure` (the boundary is
exclusive) transitions to HALF_OPEN and invokes the operation — if it
succeeds the state becomes CLOSED with the failure count reset to 0; a
success in HALF_OPEN closes the breaker and resets the count. -/
theorem C1_circuit_breaker_state_machine :
    (∀ t1 t2 t3 t4 t5 : Nat,
      (CircuitBreaker.init.run
        [(t1, false), (t2, false), (t3, false), (t4, false), (t5, false)]).state
        = CBState.OPEN) ∧
    (∀ t1 t2 t3 t4 : Nat,
      (CircuitBreaker.init.run
        [(t1, false), (t2, false), (t3, false), (t4, false)]).state
        = CBState.CLOSED) ∧
    (∀ (cb : CircuitBreaker) (now : Nat) (opOk : Bool),
      cb.state = CBState.OPEN →
      (now : Int) - jsNumOfNullable cb.lastFailure ≤ (cb.timeout : Int) →
      cb.execute now opOk = (cb, CBOutcome.rejected)) ∧
    (∀ (cb : CircuitBreaker) (now : Nat),
      cb.state = CBState.OPEN →
      (now : Int) - jsNumOfNullable cb.lastFailure > (cb.timeout : Int) →
      ((cb.execute now true).2 = CBOutcome.success ∧
       (cb.execute now true).1.state = CBState.CLOSED ∧
       (cb.execute now true).1.failures = 0) ∧
      (cb.execute now false).2 = CBOutcome.failure) ∧
    (∀ (cb : CircuitBreaker) (now : Nat),
      cb.state = CBState.HALF_OPEN →
      (cb.execute now true).1.state = CBState.CLOSED ∧
      (cb.execute now true).1.failures = 0 ∧
      (cb.execute now true).2 = CBOutcome.success) := by
  refine ⟨fun t1 t2 t3 t4 t5 => rfl, fun t1 t2 t3 t4 => rfl, ?_, ?_, ?_⟩
  · intro cb now opOk hst hle
    have hnot : ¬ ((now : Int) - jsNumOfNullable cb.lastFailure >
        (cb.timeout : Int)) := not_lt.mpr hle
    simp [CircuitBreaker.execute, hst, hnot]
  · intro cb now hst hgt
    refine ⟨⟨?_, ?_, ?_⟩, ?_⟩ <;> simp [CircuitBreaker.execute, hst, hgt]
  · intro cb now hst
    refine ⟨?_, ?_, ?_⟩ <;> simp [CircuitBreaker.execute, hst]

/-- C10.  A success while CLOSED leaves the breaker — failure counter
included — entirely unchanged; the counter becomes 0 only through a
successful operation run in HALF_OPEN (either from HALF_OPEN directly or
through the OPEN-after-timeout probe); and from a fresh breaker the failures
counted toward the threshold need not be consecutive: from any CLOSED
breaker with 0 failures (fresh, or just reset by a HALF_OPEN success), any
sequence with at most 4 failures, successes interleaved freely, stays CLOSED
with the counter equal to the number of failures, and one further failure
then trips the breaker to OPEN. -/
theorem C10_nonconsecutive_failures_open :
    (∀ (cb : CircuitBreaker) (now : Nat), cb.state = CBState.CLOSED →
      cb.execute now true = (cb, CBOutcome.success)) ∧
    (∀ (cb : CircuitBreaker) (now : Nat) (opOk : Bool),
      cb.failures ≠ 0 → ((cb.execute now opOk).1).failures = 0 →
      opOk = true ∧
      (cb.state = CBState.HALF_OPEN ∨
        (cb.state = CBState.OPEN ∧
         (now : Int) - jsNumOfNullable cb.lastFailure > (cb.timeout : Int)))) ∧
    (∀ (cb : CircuitBreaker) (ops : List (Nat × Bool)),
      cb.state = CBState.CLOSED → cb.failures = 0 → cb.threshold = 5 →
      countFails ops ≤ 4 →
      (cb.run ops).state = CBState.CLOSED ∧
      (cb.run ops).failures = countFails ops) ∧
    (∀ (cb : CircuitBreaker) (ops : List (Nat × Bool)) (t : Nat),
      cb.state = CBState.CLOSED → cb.failures = 0 → cb.threshold = 5 →
      countFails ops = 4 →
      (((cb.run ops).execute t false).1).state = CBState.OPEN) := by
  refine ⟨?_, ?_, ?_, ?_⟩
  · intro cb now hst
    simp [CircuitBreaker.execute, hst]
  · intro cb now opOk hne h0
    cases hst : cb.state with
    | CLOSED =>
      exfalso
      cases opOk with
      | true =>
        have : ((cb.execute now true).1).failures = cb.failures := by
          simp [CircuitBreaker.execute, hst]
        omega
      | false =>
        have : ((cb.execute now false).1).failures = cb.failures + 1 := by
          simp [CircuitBreaker.execute, hst]
        omega
    | OPEN =>
      by_cases hgt : (now : Int) - jsNumOfNullable cb.lastFailure >
          (cb.timeout : Int)
      · cases opOk with
        | true => exact ⟨rfl, Or.inr ⟨rfl, hgt⟩⟩
        | false =>
          exfalso
          have : ((cb.execute now false).1).failures = cb.failures + 1 := by
            simp [CircuitBreaker.execute, hst, hgt]
          omega
      · exfalso
        have : ((cb.execute now opOk).1).failures = cb.failures := by
          simp [CircuitBreaker.execute, hst, hgt]
        omega
    | HALF_OPEN =>
      cases opOk with
      | true => exact ⟨rfl, Or.inl rfl⟩
      | false =>
        exfalso
        have : ((cb.execute now false).1).failures = cb.failures + 1 := by
          simp [CircuitBreaker.execute, hst]
        omega
  · intro cb ops hst hf0 hth hle
    have h := CircuitBreaker.run_below_threshold ops cb hst hth (by omega)
    exact ⟨h.1, by rw [h.2.1, hf0]; omega⟩
  · intro cb ops t hst hf0 hth h4
    have h := CircuitBreaker.run_below_threshold ops cb hst hth (by omega)
    have hfive := CircuitBreaker.fifth_failure_opens (cb.run ops) t
      h.1 h.2.2 (by rw [h.2.1, hf0]; omega)
    exact hfive.1

/-- C5: an error is retryable iff its message, case-insensitively, contains
one of the seven retryable substrings; a missing error, or an error without
a message, is never retryable. -/
theorem C5_isRetryableError_characterisation :
    (∀ m : String,
      isRetryableError (some { message := some m }) = true ↔
        ∃ p ∈ retryablePatterns, p.toList <:+: (jsToLower m).toList) ∧
    isRetryableError none = false ∧
    isRetryableError (some { message := none }) = false := by
  refine ⟨?_, rfl, rfl⟩
  intro m
  simp only [isRetryableError, List.any_eq_true, jsIncludes,
    strIncludes_iff_infix]

/-- C6: the backoff delay is monotonically non-decreasing in the attempt
number, never exceeds 10000 ms, and is 1000, 2000 and 4000 ms for attempts
1, 2 and 3. -/
theorem C6_backoff_delay :
    (∀ a b : Nat, a ≤ b → backoffDelay a ≤ backoffDelay b) ∧
    (∀ a : Nat, backoffDelay a ≤ 10000) ∧
    backoffDelay 1 = 1000 ∧ backoffDelay 2 = 2000 ∧ backoffDelay 3 = 4000 := by
  refine ⟨?_, ?_, by decide, by decide, by decide⟩
  · intro a b hab
    unfold backoffDelay
    have hpow : 2 ^ (a - 1) ≤ 2 ^ (b - 1) :=
      Nat.pow_le_pow_right (by norm_num) (Nat.sub_le_sub_right hab 1)
    exact min_le_min (Nat.mul_le_mul_left 1000 hpow) le_rfl
  · intro a
    exact min_le_right _ _

/-- C6 witness: the theorem applied at attempts 2 and 3. -/
theorem C6_backoff_delay_witness :
    2 ≤ 3 ∧ backoffDelay 2 ≤ backoffDelay 3 :=
  ⟨by decide, C6_backoff_delay.1 2 3 (by decide)⟩

/-- `requestAfter`, resolved field by field. -/
theorem requestAfter_fields (n : Nat) :
    (requestAfter n).now = n ∧
    (requestAfter n).timerPending = decide (n < 30000) ∧
    (requestAfter n).uncaughtLog =
      (if 30000 ≤ n then ["Request timeout after 30 seconds"] else []) ∧
    (requestAfter n).agentReturned = none := by
  induction n with
  | zero => simp [requestAfter, requestStart]
  | succ n ih =>
    obtain ⟨h1, h2, h3, h4⟩ := ih
    by_cases hn : 30000 ≤ n + 1
    · by_cases hp : n < 30000
      · have hcond : (requestAfter n).timerPending ∧
            30000 ≤ (requestAfter n).now + 1 := by
          rw [h1, h2]
          exact ⟨decide_eq_true hp, hn⟩
        simp only [requestAfter, requestTick, if_pos hcond]
        refine ⟨by simp [h1], ?_, ?_, by simp [h4]⟩
        · symm
          rw [decide_eq_false_iff_not]
          omega
        · rw [h3, if_neg (by omega), if_pos hn]
          simp
      · have hcond : ¬ ((requestAfter n).timerPending ∧
            30000 ≤ (requestAfter n).now + 1) := by
          rw [h2]
          intro hc
          exact hp (of_decide_eq_true hc.1)
        simp only [requestAfter, requestTick, if_neg hcond]
        refine ⟨by simp [h1], ?_, ?_, h4⟩
        · rw [h2]
          exact decide_eq_decide.mpr (by omega)
        · rw [h3, if_pos (by omega), if_pos hn]
    · have hcond : ¬ ((requestAfter n).timerPending ∧
          30000 ≤ (requestAfter n).now + 1) := by
        rw [h1]
        intro hc
        exact hn hc.2
      simp only [requestAfter, requestTick, if_neg hcond]
      refine ⟨by simp [h1], ?_, ?_, h4⟩
      · rw [h2]
        exact decide_eq_decide.mpr (by omega)
      · rw [h3, if_neg (by omega), if_neg hn]

/-- C2 (refuting the claim on the code): for a request whose upstream call
hangs, `runAgent` never returns anything to the caller — at no time does the
apology string (or any string) surface — while, once 30000 ms have elapsed,
the "Request timeout after 30 seconds" error sits in the process-level
uncaught-exception log instead of in `runAgent`'s catch clause. -/
theorem C2_timeout_not_surfaced_to_caller :
    (∀ n : Nat, (requestAfter n).agentReturned = none) ∧
    (requestAfter 30000).uncaughtLog = ["Request timeout after 30 seconds"] ∧
    (requestAfter 29999).uncaughtLog = [] := by
  refine ⟨fun n => (requestAfter_fields n).2.2.2, ?_, ?_⟩
  · rw [(requestAfter_fields 30000).2.2.1]; simp
  · rw [(requestAfter_fields 29999).2.2.1]; simp

/-- An overwrite-style fold keeps the last produced value. -/
theorem foldl_overwrite {α β : Type} (f : α → Option β) (l : List α) :
    ∀ acc : Option β,
    l.foldl (overwriteAssign f) acc
      = match (l.filterMap f).getLast? with | some n => some n | none => acc := by
  induction l with
  | nil => intro acc; rfl
  | cons m l ih =>
    intro acc
    cases hm : f m with
    | none =>
      simp only [List.foldl_cons, List.filterMap_cons, hm, overwriteAssign]
      exact ih acc
    | some n =>
      simp only [List.foldl_cons, List.filterMap_cons, hm, overwriteAssign]
      rw [ih (some n)]
      cases hl : (l.filterMap f).getLast? with
      | none =>
        have hnil : l.filterMap f = [] := by
          cases hfl : l.filterMap f with
          | nil => rfl
          | cons b t => rw [hfl] at hl; simp [List.getLast?] at hl
        rw [hnil]
        rfl
      | some k =>
        have : (n :: l.filterMap f).getLast? = some k := by
          cases hfl : l.filterMap f with
          | nil => rw [hfl] at hl; simp at hl
          | cons b t =>
            rw [hfl] at hl
            rw [List.getLast?_cons_cons]
            exact hl
        rw [this]

/-- C4 counterexample.  Two retrieved user turns both match the name
pattern: "my name is Alice" then "my name is Bob".  The claim says the
extracted name is from the earliest matching turn ("Alice"); the code
yields "Bob". -/
theorem C4_overwrite_counterexample :
    extractUserName (formatHistoryFromMemory
      [ { pageContent := "my name is Alice", role := some "human",
          timestamp := none },
        { pageContent := "my name is Bob", role := some "human",
          timestamp := none } ]) = some "Bob" ∧
    ("Bob" : String) ≠ "Alice" := by
  exact ⟨by decide, by decide⟩

/-- C4 (amended): the user's name is taken from the LATEST user-role turn
matching the name patterns — each later match overwrites the earlier value,
so for every history the extracted name is the last match, not the
first. -/
theorem C4_latest_match_wins (history : List ChatMessage) :
    extractUserName history = (history.filterMap turnName).getLast? := by
  unfold extractUserName
  rw [foldl_overwrite turnName history none]
  cases (history.filterMap turnName).getLast? with
  | none => rfl
  | some n => rfl

/-- C7: the two-phase query of `retrieveFromMemory` — identity queries run
the `mentionsName`-filtered search first and fall back to the unfiltered
scoped search exactly when the filtered result is empty, other queries go
straight to the unfiltered search — and every returned sequence is the
selected phase's result sorted ascending by timestamp (a permutation of it),
regardless of the similarity order the store returned. -/
theorem C7_two_phase_sorted_retrieval :
    (∀ (cid input : String) (sim : Bool → List MemDoc),
      cid ≠ "" → input ≠ "" → identityQuery input = true → sim true ≠ [] →
      retrieveFromMemory (some cid) (some input) sim =
        List.insertionSort tsLE (sim true)) ∧
    (∀ (cid input : String) (sim : Bool → List MemDoc),
      cid ≠ "" → input ≠ "" → identityQuery input = true → sim true = [] →
      retrieveFromMemory (some cid) (some input) sim =
        List.insertionSort tsLE (sim false)) ∧
    (∀ (cid input : String) (sim : Bool → List MemDoc),
      cid ≠ "" → input ≠ "" → identityQuery input = false →
      retrieveFromMemory (some cid) (some input) sim =
        List.insertionSort tsLE (sim false)) ∧
    (∀ (chatId currentInput : Option String) (sim : Bool → List MemDoc),
      (retrieveFromMemory chatId currentInput sim).Sorted tsLE) ∧
    (∀ l : List MemDoc, List.Perm (List.insertionSort tsLE l) l) := by
  refine ⟨?_, ?_, ?_, ?_, fun l => List.perm_insertionSort tsLE l⟩
  · intro cid input sim hcid hinput hiq hne
    simp [retrieveFromMemory, hcid, hinput, hiq, hne]
  · intro cid input sim hcid hinput hiq hempty
    simp [retrieveFromMemory, hcid, hinput, hiq, hempty]
  · intro cid input sim hcid hinput hiq
    simp [retrieveFromMemory, hcid, hinput, hiq]
  · intro chatId currentInput sim
    match chatId, currentInput with
    | some cid, some input =>
      simp only [retrieveFromMemory]
      by_cases hguard : cid = "" ∨ input = ""
      · rw [if_pos hguard]
        exact List.sorted_nil
      · rw [if_neg hguard]
        exact List.sorted_insertionSort tsLE _
    | some cid, none => exact List.sorted_nil
    | none, _ => exact List.sorted_nil

/-- C7 witness: the theorem's first phase applied to a concrete identity
query with a nonempty filtered result. -/
theorem C7_two_phase_sorted_retrieval_witness :
    retrieveFromMemory (some "chat1") (some "what is my name")
      (fun b => if b then
        [ { pageContent := "my name is Alice", role := some "human",
            timestamp := some 5 } ] else []) =
    List.insertionSort tsLE
      [ { pageContent := "my name is Alice", role := some "human",
          timestamp := some 5 } ] :=
  C7_two_phase_sorted_retrieval.1 "chat1" "what is my name"
    (fun b => if b then
      [ { pageContent := "my name is Alice", role := some "human",
          timestamp := some 5 } ] else [])
    (by decide) (by decide) (by decide) (by decide)

/-- With no caller-supplied chatId the loop writes nothing at any attempt
number or fuel. -/
theorem runAgentFrom_none_writes_nil (input : String)
    (res : Nat → Except JsErrorObj (Option String)) :
    ∀ fuel attemptNo : Nat,
      (runAgentFrom none input res attemptNo fuel).2 = [] := by
  intro fuel
  induction fuel with
  | zero => intro attemptNo; rfl
  | succ fuel ih =>
    intro attemptNo
    cases hres : res attemptNo with
    | ok out? => simp [runAgentFrom, hres]
    | error e =>
      by_cases hretry : isRetryableError (some e) ∧ fuel ≥ 1
      · simp only [runAgentFrom, hres, if_pos hretry]
        exact ih (attemptNo + 1)
      · simp [runAgentFrom, hres, hretry]

/-- C8: a request without a chatId leaves the memory store unchanged — the
run writes no rows, the store after the request is the store before it, and
every later conversation-scoped retrieval (the generated ephemeral id's
included) sees exactly what it would have seen before. -/
theorem C8_ephemeral_not_persisted :
    (∀ (input : String) (res : Nat → Except JsErrorObj (Option String)),
      (runAgentModel none input res).2 = []) ∧
    (∀ (input : String) (res : Nat → Except JsErrorObj (Option String))
        (store : List MemEntry),
      store ++ (runAgentModel none input res).2 = store) ∧
    (∀ (input : String) (res : Nat → Except JsErrorObj (Option String))
        (store : List MemEntry) (uid : String),
      scopedEntries (store ++ (runAgentModel none input res).2) uid =
        scopedEntries store uid) := by
  refine ⟨?_, ?_, ?_⟩
  · intro input res
    exact runAgentFrom_none_writes_nil input res 3 1
  · intro input res store
    rw [show runAgentModel none input res = runAgentFrom none input res 1 3 from rfl]
    rw [runAgentFrom_none_writes_nil input res 3 1]
    exact List.append_nil store
  · intro input res store uid
    rw [show runAgentModel none input res = runAgentFrom none input res 1 3 from rfl]
    rw [runAgentFrom_none_writes_nil input res 3 1]
    rw [List.append_nil store]

/-- C3 (refuting the claim on the code): whenever repository resolution
fails, `_call` does not return a "repository not found" error string — the
outer catch's first statement evaluates the out-of-scope identifier
`repository`, and the resulting ReferenceError propagates out of `_call` to
the agent loop.  The second conjunct evaluates the concrete failing input
`{repository: "zzz-no-such-repo"}` against an API on which the three
search strategies find nothing. -/
theorem C3_resolution_failure_escapes :
    (∀ (api : GitHubApi) (listIssues : String → Except JsError String)
        (repository : String) (labels state : JsVal) (e : JsError),
      issueArgValid
        { repository := JsVal.str repository, labels := labels,
          state := state } = true →
      findRepository api repository = Except.error e →
      issueToolCall api listIssues
        { repository := JsVal.str repository, labels := labels,
          state := state }
        = Except.error (JsError.referenceError "repository")) ∧
    issueToolCall
      { repoGetOk := fun _ _ => false,
        searchInName := fun _ => some [],
        searchOrg := fun _ => some [],
        searchInNameDesc := fun _ => some [] }
      (fun _ => Except.ok "")
      { repository := JsVal.str "zzz-no-such-repo", labels := JsVal.undef,
        state := JsVal.undef }
      = Except.error (JsError.referenceError "repository") := by
  constructor
  · intro api listIssues repository labels state e hvalid hfind
    simp only [issueToolCall, hvalid, Bool.not_true, Bool.false_eq_true,
      if_false, hfind]
    rfl
  · rfl

/-- C9 counterexample.  Body `{message: "hi", chatId: 0}`: the chatId is
present and is not a string, so the claim requires a 400; but `chatId &&`
short-circuits on the falsy `0`, validation passes, and the handler answers
200 with the agent's response. -/
theorem C9_falsy_chatId_counterexample :
    isStringVal (JsVal.num 0) = false ∧
    chatPostHandler { message := JsVal.str "hi", chatId := JsVal.num 0 }
      (Except.ok "hello") = HttpResponse.okJson "hello" :=
  ⟨rfl, rfl⟩

/-- C9 (amended): the handler answers 400 with an error naming "message"
whenever the message is falsy (absent, null, `""`, `0`, `false`) or not a
string — in particular an empty-string message, although present and a
string, is rejected; it answers 400 for a chatId that is truthy and not a
string (a falsy non-string chatId such as `0`, `false` or `null` passes
validation); and it answers `200 {response: string}` when the message is a
nonempty string, the chatId is a string or falsy, and the agent call
succeeds. -/
theorem C9_chat_route_validation :
    (∀ (body : ChatBody) (agent : Except JsErrorObj String),
      (jsTruthy body.message = false ∨ isStringVal body.message = false) →
      chatPostHandler body agent = HttpResponse.badRequest
        "Bad Request: \"message\" is required and must be a string.") ∧
    (∀ (body : ChatBody) (agent : Except JsErrorObj String),
      jsTruthy body.message = true → isStringVal body.message = true →
      jsTruthy body.chatId = true → isStringVal body.chatId = false →
      chatPostHandler body agent = HttpResponse.badRequest
        "Bad Request: \"chatId\" must be a string if provided.") ∧
    (∀ (body : ChatBody) (out : String),
      jsTruthy body.message = true → isStringVal body.message = true →
      (jsTruthy body.chatId = true → isStringVal body.chatId = true) →
      chatPostHandler body (Except.ok out) = HttpResponse.okJson out) ∧
    jsIncludes "Bad Request: \"message\" is required and must be a string."
      "message" = true := by
  refine ⟨?_, ?_, ?_, by rfl⟩
  · intro body agent hbad
    have hcond : (jsTruthy body.message && isStringVal body.message) = false := by
      cases hbad with
      | inl h => simp [h]
      | inr h => simp [h]
    simp [chatPostHandler, hcond]
  · intro body agent hm hs hc hns
    simp [chatPostHandler, hm, hs, hc, hns]
  · intro body out hm hs hchat
    by_cases hc : jsTruthy body.chatId = true
    · simp [chatPostHandler, hm, hs, hc, hchat hc]
    · simp only [Bool.not_eq_true] at hc
      simp [chatPostHandler, hm, hs, hc]
